import Mathlib

/-!
Shallow embedding of the youtube-utils repository (three Python scripts):
  * src/scripts/youtube-playlist-duration.py  — subprocess (yt-dlp) strategy
  * src/youtube_duration_calculator_api.py    — paginated Data-API strategy
  * src/search/scripts/youtube-search-api.py  — search with duration filters

External collaborators (the YouTube Data API, the yt-dlp subprocess, the
json / isodate libraries) are modelled as explicit parameters: a page/batch
fetch returns `Except Unit …` (`.error` models an `HttpError`), and the
per-record parsers are oracles `String → Option …` (`none` models a raised
parse exception).  Durations are integer seconds (`Int`): both scripts take
the threshold in minutes (an `int` CLI flag) and compare whole-second
durations, so an `Int` model is exact.
-/

namespace YTUtils

/-- Python `"{:02}".format(n)` for a natural number: decimal digits, left
zero-padded to a minimum width of two. -/
def pad2 (n : Nat) : String :=
  if n < 10 then "0" ++ toString n else toString n

/-- Python `"{:02}".format(n)` for an `Int` (negative values print a sign and
are at least two characters anyway, matching Python's behaviour on the values
this repository can produce). -/
def pad2i (n : Int) : String :=
  if 0 ≤ n ∧ n < 10 then "0" ++ toString n else toString n

namespace SearchApi

/-- `format_timedelta` of src/search/scripts/youtube-search-api.py:
`divmod(total_seconds, 3600)` then `divmod(remainder, 60)`, rendered as
`HH:MM:SS` with `{:02}` fields (no day component). -/
def format_timedelta (total_seconds : Nat) : String :=
  let hours := total_seconds / 3600
  let remainder := total_seconds % 3600
  let minutes := remainder / 60
  let seconds := remainder % 60
  pad2 hours ++ ":" ++ pad2 minutes ++ ":" ++ pad2 seconds

end SearchApi

namespace DurationCalc

/-- `format_timedelta` of src/youtube_duration_calculator_api.py:
`divmod(total_seconds, 86400)` first; with a positive day count the result is
`"{days} days, HH:MM:SS"`, otherwise plain `HH:MM:SS`. -/
def format_timedelta (total_seconds : Nat) : String :=
  let days := total_seconds / 86400
  let remainder := total_seconds % 86400
  let hours := remainder / 3600
  let remainder2 := remainder % 3600
  let minutes := remainder2 / 60
  let seconds := remainder2 % 60
  if days > 0 then
    toString days ++ " days, " ++ pad2 hours ++ ":" ++ pad2 minutes ++ ":" ++ pad2 seconds
  else
    pad2 hours ++ ":" ++ pad2 minutes ++ ":" ++ pad2 seconds

end DurationCalc

namespace Ytdlp

/-- One per-line yt-dlp metadata record, as read by
`get_playlist_duration_ytdlp` (src/scripts/youtube-playlist-duration.py):
only the `duration`, `webpage_url` and `title` keys are consulted, each of
which may be absent from the JSON object. -/
structure VideoMeta where
  duration : Option Int
  webpage_url : Option String
  title : Option String
deriving Repr, DecidableEq

/-- The observable outcome of one `get_playlist_duration_ytdlp` run on a
successful yt-dlp invocation: the printed `found`/`included` counts, the
accumulated `total_seconds`, the links collected for `--save-file`, the
number of per-record warning lines printed, and the returned `HH:MM:SS`
string. -/
structure Result where
  found : Nat
  included : Nat
  totalSeconds : Int
  links : List String
  warnings : Nat
  formatted : String
deriving Repr, DecidableEq

/-- The mutable per-run accumulators of the processing loop. -/
structure St where
  included : Nat
  totalSeconds : Int
  links : List String
  warnings : Nat
deriving Repr, DecidableEq

/-- Python `str.strip()`: drop leading and trailing whitespace. -/
def pyStrip (s : List Char) : List Char :=
  ((s.dropWhile Char.isWhitespace).reverse.dropWhile Char.isWhitespace).reverse

/-- Worker for `pySplitLines`: `cur` holds the characters of the current
field in reverse. -/
def pySplitLinesAux (cur : List Char) : List Char → List String
  | [] => [cur.reverse.asString]
  | c :: cs =>
    if c = '\n' then cur.reverse.asString :: pySplitLinesAux [] cs
    else pySplitLinesAux (c :: cur) cs

/-- Python `s.split('\n')` with an explicit separator: fields between
newline occurrences, and in particular `''.split('\n') == ['']` — the result
is never empty. -/
def pySplitLines (s : List Char) : List String :=
  pySplitLinesAux [] s

/-- Loop body of `get_playlist_duration_ytdlp` for one line of yt-dlp output.
`parse` models `json.loads` plus the `.get` field accesses: `none` is a raised
`json.JSONDecodeError`/`KeyError`, caught by the per-line handler which prints
one warning and moves on.  A parsed record with `duration` absent prints one
warning and is skipped; otherwise the record is included iff
`duration >= min_duration_seconds`, accumulating its duration and — when its
`webpage_url` is present and non-empty (the `if video_url:` truthiness
check) — its link. -/
def processLine (parse : String → Option VideoMeta) (minSec : Int)
    (st : St) (line : String) : St :=
  match parse line with
  | none => { st with warnings := st.warnings + 1 }
  | some meta =>
    match meta.duration with
    | none => { st with warnings := st.warnings + 1 }
    | some d =>
      if minSec ≤ d then
        { st with
          included := st.included + 1
          totalSeconds := st.totalSeconds + d
          links := st.links ++ (match meta.webpage_url with
            | some u => if u.isEmpty then [] else [u]
            | none => []) }
      else st

/-- The per-line loop over all lines of yt-dlp standard output. -/
def processLines (parse : String → Option VideoMeta) (minSec : Int)
    (st : St) : List String → St
  | [] => st
  | line :: rest => processLines parse minSec (processLine parse minSec st line) rest

/-- `get_playlist_duration_ytdlp` on a successful subprocess run, as a
function of the subprocess's standard output.  `video_lines =
result.stdout.strip().split('\n')`, `total_videos_found = len(video_lines)`;
the loop accumulates the included count, total seconds, links and warnings;
the return value formats `total_seconds` as `HH:MM:SS` via
`total_seconds // 3600`, `(total_seconds % 3600) // 60`, `total_seconds % 60`
(Python floor division and modulo, i.e. `Int.fdiv`/`Int.fmod`). -/
def get_playlist_duration_ytdlp (parse : String → Option VideoMeta)
    (stdout : String) (min_duration_minutes : Int) : Result :=
  let minSec : Int := min_duration_minutes * 60
  let video_lines := pySplitLines (pyStrip stdout.data)
  let st := processLines parse minSec ⟨0, 0, [], 0⟩ video_lines
  let hours := st.totalSeconds.fdiv 3600
  let minutes := (st.totalSeconds.fmod 3600).fdiv 60
  let seconds := st.totalSeconds.fmod 60
  { found := video_lines.length
    included := st.included
    totalSeconds := st.totalSeconds
    links := st.links
    warnings := st.warnings
    formatted := pad2i hours ++ ":" ++ pad2i minutes ++ ":" ++ pad2i seconds }

/-- Specification-side characterisation of the included records: the
durations, in order, of exactly those lines that parse, carry a duration, and
meet the threshold. -/
def includedDurations (parse : String → Option VideoMeta) (minSec : Int)
    (lines : List String) : List Int :=
  lines.filterMap fun l =>
    match parse l with
    | none => none
    | some meta =>
      match meta.duration with
      | none => none
      | some d => if minSec ≤ d then some d else none

end Ytdlp

namespace DurationCalc

/-- Character class `[a-zA-Z0-9_-]` used by the playlist and video patterns
of `parse_url` (src/youtube_duration_calculator_api.py). -/
def idChar (c : Char) : Bool :=
  c.isAlpha || c.isDigit || c = '_' || c = '-'

/-- Character class `[a-zA-Z0-9_.-]` used by the channel pattern. -/
def channelChar (c : Char) : Bool :=
  idChar c || c = '.'

/-- Consume a literal from the front of the input, returning the remainder. -/
def matchLit : List Char → List Char → Option (List Char)
  | [], s => some s
  | _ :: _, [] => none
  | c :: p, d :: s => if c = d then matchLit p s else none

/-- `re.search` scan: try the pattern at every start position, leftmost match
wins. -/
def reSearch (f : List Char → Option α) : List Char → Option α
  | [] => f []
  | c :: cs =>
    match f (c :: cs) with
    | some r => some r
    | none => reSearch f cs

/-- Match of `list=([a-zA-Z0-9_-]+)` anchored at the start of `s`: the literal
`list=` followed by at least one id character; the greedy capture is the
maximal id-character run. -/
def playlistAt (s : List Char) : Option String :=
  match matchLit "list=".data s with
  | none => none
  | some rest =>
    let run := rest.takeWhile idChar
    if run.isEmpty then none else some run.asString

/-- Match of `(?:watch\?v=|youtu\.be/|embed/)([a-zA-Z0-9_-]{11})` anchored at
the start of `s`: one of the three literal alternatives (their first
characters differ, so at most one applies at a position) followed by exactly
eleven id characters, which form the capture. -/
def videoAt (s : List Char) : Option String :=
  let tryPre (p : String) : Option String :=
    match matchLit p.data s with
    | none => none
    | some rest =>
      let cap := rest.take 11
      if cap.length = 11 && cap.all idChar then some cap.asString else none
  match tryPre "watch?v=" with
  | some r => some r
  | none =>
    match tryPre "youtu.be/" with
    | some r => some r
    | none => tryPre "embed/"

/-- Match of `/(channel|c|@)/([a-zA-Z0-9_.-]+)` anchored at the start of `s`:
alternatives tried in pattern order with full backtracking (so `/channel/x`
matches via `channel`, not `c`); the returned capture is group 2. -/
def channelAt (s : List Char) : Option String :=
  let tryAlt (alt : String) : Option String :=
    match matchLit ("/" ++ alt ++ "/").data s with
    | none => none
    | some rest =>
      let run := rest.takeWhile channelChar
      if run.isEmpty then none else some run.asString
  match tryAlt "channel" with
  | some r => some r
  | none =>
    match tryAlt "c" with
    | some r => some r
    | none => tryAlt "@"

/-- The three source kinds `parse_url` can return. -/
inductive UrlKind
  | playlist
  | video
  | channel
deriving Repr, DecidableEq

/-- `parse_url`: try the playlist pattern, then the video pattern, then the
channel pattern; return the first match's kind and captured identifier, or
`none` (the Python `(None, None)`) when none match. -/
def parse_url (url : String) : Option (UrlKind × String) :=
  match reSearch playlistAt url.data with
  | some id => some (UrlKind.playlist, id)
  | none =>
    match reSearch videoAt url.data with
    | some id => some (UrlKind.video, id)
    | none =>
      match reSearch channelAt url.data with
      | some id => some (UrlKind.channel, id)
      | none => none

/-- One `playlistItems().list` response page: the video ids of its items and
the optional continuation token. -/
structure PlaylistPage where
  items : List String
  nextPageToken : Option String
deriving Repr, DecidableEq

/-- Worker for `get_playlist_video_ids`: `acc` is the `video_ids` list built
so far.  Each loop iteration consumes the next remote response.  An
`HttpError` (`Except.error`) makes the function return `[]` — the bare
`return []` in the `except` branch discards everything accumulated.  A
successful page extends `acc` and the loop continues iff the page carries a
`nextPageToken`.  (An exhausted response stream stops with `acc`; the claims
never exercise that artificial case.) -/
def get_playlist_video_ids_aux (acc : List String) :
    List (Except Unit PlaylistPage) → List String
  | [] => acc
  | Except.error _ :: _ => []
  | Except.ok p :: rest =>
    match p.nextPageToken with
    | none => acc ++ p.items
    | some _ => get_playlist_video_ids_aux (acc ++ p.items) rest

/-- `get_playlist_video_ids`, as a function of the sequence of remote
responses the paginated `playlistItems().list` endpoint produces. -/
def get_playlist_video_ids (responses : List (Except Unit PlaylistPage)) :
    List String :=
  get_playlist_video_ids_aux [] responses

/-- One item of a `videos().list` response: the video id and the raw
`contentDetails.duration` ISO-8601 string, `none` when the key is absent
(its access then raises `KeyError`). -/
structure ApiItem where
  id : String
  duration : Option String
deriving Repr, DecidableEq

/-- The uncaught exceptions `get_videos_duration` can raise per record:
`KeyError` from `item['contentDetails']['duration']`, or the `isodate`
parse error — neither is an `HttpError`, so the surrounding handler does not
catch them and the whole call aborts. -/
inductive ApiErr
  | keyError
  | isoParseError
deriving Repr, DecidableEq

/-- The accumulators of `get_videos_duration`: `total_duration` (seconds),
`included_links`, `included_count`. -/
structure ApiState where
  total : Int
  links : List String
  count : Nat
deriving Repr, DecidableEq

/-- Canonical watch URL appended for an included video when `--save-links`
is set. -/
def watchUrl (id : String) : String :=
  "https://www.youtube.com/watch?v=" ++ id

/-- Inner loop of `get_videos_duration` over the items of one response:
read the ISO duration (missing key raises), parse it (`parse` models
`isodate.parse_duration`; `none` is a raised parse error), and include the
record iff its duration is at least the threshold. -/
def processApiItems (parse : String → Option Int) (minSec : Int)
    (saveLinks : Bool) (st : ApiState) : List ApiItem → Except ApiErr ApiState
  | [] => Except.ok st
  | it :: rest =>
    match it.duration with
    | none => Except.error ApiErr.keyError
    | some s =>
      match parse s with
      | none => Except.error ApiErr.isoParseError
      | some d =>
        if minSec ≤ d then
          processApiItems parse minSec saveLinks
            { total := st.total + d
              links := if saveLinks then st.links ++ [watchUrl it.id] else st.links
              count := st.count + 1 } rest
        else processApiItems parse minSec saveLinks st rest

/-- Structural worker for `chunks50`; the fuel argument is instantiated with
the list's length, which bounds the number of batches (each step drops ≥ 1
element of a non-empty list). -/
def chunksGo : Nat → List String → List (List String)
  | 0, _ => []
  | _, [] => []
  | n + 1, x :: xs => (x :: xs).take 50 :: chunksGo n ((x :: xs).drop 50)

/-- `for i in range(0, len(video_ids), 50): chunk = video_ids[i:i+50]` —
the batches of at most 50 ids, in order. -/
def chunks50 (l : List String) : List (List String) :=
  chunksGo l.length l

/-- Outer loop of `get_videos_duration` over the batches: `fetch` models one
`videos().list` call (`Except.error` is an `HttpError`, which is printed and
the loop `continue`s, so the failed batch contributes nothing); a per-record
exception inside a successful batch propagates and aborts the whole call. -/
def processChunks (fetch : List String → Except Unit (List ApiItem))
    (parse : String → Option Int) (minSec : Int) (saveLinks : Bool)
    (st : ApiState) : List (List String) → Except ApiErr ApiState
  | [] => Except.ok st
  | c :: rest =>
    match fetch c with
    | Except.error _ => processChunks fetch parse minSec saveLinks st rest
    | Except.ok items =>
      match processApiItems parse minSec saveLinks st items with
      | Except.error e => Except.error e
      | Except.ok st2 => processChunks fetch parse minSec saveLinks st2 rest

/-- `get_videos_duration` (src/youtube_duration_calculator_api.py): batch the
ids by 50, fetch and filter each batch, with `min_duration_td =
timedelta(minutes=min_duration_minutes)`, i.e. a threshold of
`min_duration_minutes * 60` seconds. -/
def get_videos_duration (fetch : List String → Except Unit (List ApiItem))
    (parse : String → Option Int) (video_ids : List String)
    (min_duration_minutes : Int) (save_links : Bool) : Except ApiErr ApiState :=
  processChunks fetch parse (min_duration_minutes * 60) save_links
    ⟨0, [], 0⟩ (chunks50 video_ids)

/-- The durations, in order, of the items of one batch that pass the
filter: the duration string is present, parses, and meets the threshold. -/
def itemIncl (parse : String → Option Int) (minSec : Int)
    (items : List ApiItem) : List Int :=
  items.filterMap fun it =>
    match it.duration with
    | none => none
    | some s =>
      match parse s with
      | none => none
      | some d => if minSec ≤ d then some d else none

/-- Specification-side characterisation of the included records of one
`get_videos_duration` call: per batch, a failed fetch contributes nothing,
and a fetched item is included iff its duration parses and meets the
threshold. -/
def includedDurationsApi (fetch : List String → Except Unit (List ApiItem))
    (parse : String → Option Int) (minSec : Int)
    (cs : List (List String)) : List Int :=
  cs.flatMap fun c =>
    match fetch c with
    | Except.error _ => []
    | Except.ok items => itemIncl parse minSec items

end DurationCalc

namespace SearchApi

/-- One item of a `search().list` response page (snippet fields used by
`search_youtube` in src/search/scripts/youtube-search-api.py). -/
structure SearchItem where
  videoId : String
  title : String
  channelTitle : String
deriving Repr, DecidableEq

/-- One `search().list` response page: items plus optional continuation
token. -/
structure SearchPage where
  items : List SearchItem
  nextPageToken : Option String
deriving Repr, DecidableEq

/-- One item of a `videos().list` response; `duration` is
`contentDetails.get('duration', 'PT0S')`, so an absent key falls back to
`"PT0S"` rather than raising (the search script, unlike the duration
calculator, uses a defaulted access). -/
structure VidDetail where
  id : String
  duration : Option String
deriving Repr, DecidableEq

/-- One search result object, with exactly the five keys the script stores:
`title`, `channel`, `duration` (formatted `HH:MM:SS`), `url`, `videoId`. -/
structure ResultObj where
  title : String
  channel : String
  duration : String
  url : String
  videoId : String
deriving Repr, DecidableEq

/-- `video_details = {item['id']: item for item in response['items']}` — a
dict comprehension keeps the last item for a duplicated key, so lookup is the
last matching element. -/
def dictLookup (details : List VidDetail) (k : String) : Option VidDetail :=
  details.reverse.find? fun d => d.id == k

/-- The result object built for an included video of duration `d` seconds. -/
def mkResult (it : SearchItem) (d : Nat) : ResultObj :=
  { title := it.title
    channel := it.channelTitle
    duration := format_timedelta d
    url := "https://www.youtube.com/watch?v=" ++ it.videoId
    videoId := it.videoId }

/-- Inner loop of the `--min-duration` path of `search_youtube` over one
search page's items: skip items with no detail entry; parse the (possibly
defaulted) ISO duration (`parse` models `isodate.parse_duration`, `none`
being a raised error, which is uncaught); append an item whose duration
meets the threshold, and return early with the first `max_results` results
once the accumulator is full.  `Sum.inl` is the early `return
final_results[:max_results]`; `Sum.inr` continues the outer loop with the
grown accumulator. -/
def processSearchItems (details : List VidDetail) (parse : String → Option Nat)
    (minTd : Int) (maxResults : Nat) (acc : List ResultObj) :
    List SearchItem → Except Unit (List ResultObj ⊕ List ResultObj)
  | [] => Except.ok (Sum.inr acc)
  | it :: rest =>
    match dictLookup details it.videoId with
    | none => processSearchItems details parse minTd maxResults acc rest
    | some vd =>
      match parse (vd.duration.getD "PT0S") with
      | none => Except.error ()
      | some d =>
        if minTd ≤ (d : Int) then
          let acc2 := acc ++ [mkResult it d]
          if maxResults ≤ acc2.length then Except.ok (Sum.inl (acc2.take maxResults))
          else processSearchItems details parse minTd maxResults acc2 rest
        else processSearchItems details parse minTd maxResults acc rest

/-- Outer loop of the `--min-duration` path (`for _ in range(5)`), returning
the outcome together with the number of `search().list` pages actually
requested.  `searchFetch` maps the page index to the remote response and
`videoFetch` models the per-page `videos().list` call; an `HttpError` on
either (`Except.error`) prints and `break`s, after which the function returns
`final_results[:max_results]`.  The loop also breaks on an item-less page and
when a page carries no continuation token. -/
def searchPagesAux (searchFetch : Nat → Except Unit SearchPage)
    (videoFetch : List String → Except Unit (List VidDetail))
    (parse : String → Option Nat) (minTd : Int) (maxResults : Nat) :
    Nat → Nat → List ResultObj → Except Unit (List ResultObj) × Nat
  | 0, _, acc => (Except.ok (acc.take maxResults), 0)
  | fuel + 1, idx, acc =>
    match searchFetch idx with
    | Except.error _ => (Except.ok (acc.take maxResults), 1)
    | Except.ok page =>
      let ids := page.items.map fun it => it.videoId
      if ids.isEmpty then (Except.ok (acc.take maxResults), 1)
      else
        match videoFetch ids with
        | Except.error _ => (Except.ok (acc.take maxResults), 1)
        | Except.ok details =>
          match processSearchItems details parse minTd maxResults acc page.items with
          | Except.error e => (Except.error e, 1)
          | Except.ok (Sum.inl res) => (Except.ok res, 1)
          | Except.ok (Sum.inr acc2) =>
            match page.nextPageToken with
            | none => (Except.ok (acc2.take maxResults), 1)
            | some _ =>
              let r := searchPagesAux searchFetch videoFetch parse minTd maxResults
                fuel (idx + 1) acc2
              (r.1, r.2 + 1)

/-- The `--min-duration` path of `search_youtube`: at most 5 sequential
search pages (`for _ in range(5)`), threshold
`timedelta(minutes=min_duration_minutes)`, empty initial accumulator. -/
def search_youtube_min (searchFetch : Nat → Except Unit SearchPage)
    (videoFetch : List String → Except Unit (List VidDetail))
    (parse : String → Option Nat) (min_duration_minutes : Int)
    (max_results : Nat) : Except Unit (List ResultObj) × Nat :=
  searchPagesAux searchFetch videoFetch parse (min_duration_minutes * 60)
    max_results 5 0 []

/-- What `save_results` writes: the structured payload of the `.json` branch
(`json.dump` of exactly the five-key result objects), the text of the `.txt`
branch, or the reported invalid-extension error in which no file is
written. -/
inductive SaveOutcome
  | jsonFile (objs : List ResultObj)
  | txtFile (content : String)
  | invalidExtension
deriving Repr, DecidableEq

/-- The `.txt` branch's content: one block per result,
`"[duration] title - (channel)\n    url\n\n"`. -/
def txtBlocks (results : List ResultObj) : String :=
  String.join (results.map fun it =>
    "[" ++ it.duration ++ "] " ++ it.title ++ " - (" ++ it.channel ++ ")\n"
      ++ "    " ++ it.url ++ "\n\n")

/-- `save_results`: dispatch on `filename.lower().endswith(...)` —
`.json` dumps the result objects as a JSON array, `.txt` writes the formatted
blocks, anything else reports an invalid-extension error and writes
nothing. -/
def save_results (filename : String) (results : List ResultObj) : SaveOutcome :=
  let lower := filename.data.map Char.toLower
  if ".json".data.isSuffixOf lower then SaveOutcome.jsonFile results
  else if ".txt".data.isSuffixOf lower then SaveOutcome.txtFile (txtBlocks results)
  else SaveOutcome.invalidExtension

end SearchApi

end YTUtils

open YTUtils

section Helpers

/-- One step of the yt-dlp loop grows the included count by the length of
the step's contribution to `includedDurations` and the total by its sum. -/
lemma processLines_characterization
    (parse : String → Option Ytdlp.VideoMeta) (minSec : Int) :
    ∀ (lines : List String) (st : Ytdlp.St),
      (Ytdlp.processLines parse minSec st lines).included =
        st.included + (Ytdlp.includedDurations parse minSec lines).length ∧
      (Ytdlp.processLines parse minSec st lines).totalSeconds =
        st.totalSeconds + (Ytdlp.includedDurations parse minSec lines).sum := by
  intro lines
  induction lines with
  | nil => intro st; simp [Ytdlp.processLines, Ytdlp.includedDurations]
  | cons line rest ih =>
    intro st
    have hrest := ih (Ytdlp.processLine parse minSec st line)
    rw [Ytdlp.processLines]
    rcases hrest with ⟨hc, ht⟩
    rw [hc, ht]
    simp only [Ytdlp.includedDurations, List.filterMap_cons] at *
    rw [Ytdlp.processLine]
    cases hp : parse line with
    | none => simp [hp, Ytdlp.includedDurations]
    | some meta =>
      cases hd : meta.duration with
      | none => simp [hp, hd, Ytdlp.includedDurations]
      | some d =>
        by_cases hge : minSec ≤ d
        · simp [hp, hd, hge, Ytdlp.includedDurations]
          constructor <;> omega
        · simp [hp, hd, hge, Ytdlp.includedDurations]

/-- The included count of a yt-dlp run is the number of records passing the
filter. -/
lemma ytdlp_run_included (parse : String → Option Ytdlp.VideoMeta)
    (stdout : String) (m : Int) :
    (Ytdlp.get_playlist_duration_ytdlp parse stdout m).included =
      (Ytdlp.includedDurations parse (m * 60)
        (Ytdlp.pySplitLines (Ytdlp.pyStrip stdout.data))).length := by
  have h := processLines_characterization parse (m * 60)
    (Ytdlp.pySplitLines (Ytdlp.pyStrip stdout.data)) ⟨0, 0, [], 0⟩
  simpa [Ytdlp.get_playlist_duration_ytdlp] using h.1

/-- The accumulated total of a yt-dlp run is the sum of the durations of
the records passing the filter. -/
lemma ytdlp_run_total (parse : String → Option Ytdlp.VideoMeta)
    (stdout : String) (m : Int) :
    (Ytdlp.get_playlist_duration_ytdlp parse stdout m).totalSeconds =
      (Ytdlp.includedDurations parse (m * 60)
        (Ytdlp.pySplitLines (Ytdlp.pyStrip stdout.data))).sum := by
  have h := processLines_characterization parse (m * 60)
    (Ytdlp.pySplitLines (Ytdlp.pyStrip stdout.data)) ⟨0, 0, [], 0⟩
  simpa [Ytdlp.get_playlist_duration_ytdlp] using h.2

/-- The reported found count of a yt-dlp run is the number of output
lines. -/
lemma ytdlp_run_found (parse : String → Option Ytdlp.VideoMeta)
    (stdout : String) (m : Int) :
    (Ytdlp.get_playlist_duration_ytdlp parse stdout m).found =
      (Ytdlp.pySplitLines (Ytdlp.pyStrip stdout.data)).length := rfl

/-- A successful pass over one batch's items grows the count by the number
of included items and the total by the sum of their durations. -/
lemma processApiItems_ok (parse : String → Option Int) (minSec : Int)
    (sl : Bool) :
    ∀ (items : List DurationCalc.ApiItem) (st st2 : DurationCalc.ApiState),
      DurationCalc.processApiItems parse minSec sl st items = Except.ok st2 →
      st2.count = st.count + (DurationCalc.itemIncl parse minSec items).length ∧
      st2.total = st.total + (DurationCalc.itemIncl parse minSec items).sum := by
  intro items
  induction items with
  | nil =>
    intro st st2 h
    rw [DurationCalc.processApiItems] at h
    cases h
    simp [DurationCalc.itemIncl]
  | cons it rest ih =>
    intro st st2 h
    rw [DurationCalc.processApiItems] at h
    cases hd : it.duration with
    | none =>
      simp only [hd] at h
      exact Except.noConfusion h
    | some s =>
      simp only [hd] at h
      cases hp : parse s with
      | none =>
        simp only [hp] at h
        exact Except.noConfusion h
      | some d =>
        simp only [hp] at h
        by_cases hge : minSec ≤ d
        · rw [if_pos hge] at h
          have hih := ih _ _ h
          have hrw : DurationCalc.itemIncl parse minSec (it :: rest)
              = d :: DurationCalc.itemIncl parse minSec rest := by
            simp [DurationCalc.itemIncl, List.filterMap_cons, hd, hp, hge]
          rw [hrw]
          rcases hih with ⟨h1, h2⟩
          constructor
          · rw [h1]; simp; omega
          · rw [h2]; simp [List.sum_cons]; omega
        · rw [if_neg hge] at h
          have hih := ih _ _ h
          have hrw : DurationCalc.itemIncl parse minSec (it :: rest)
              = DurationCalc.itemIncl parse minSec rest := by
            simp [DurationCalc.itemIncl, List.filterMap_cons, hd, hp, hge]
          rw [hrw]
          exact hih

/-- A successful pass over the batches grows the count and total by the
length and sum of the spec-side included-durations list. -/
lemma processChunks_ok (fetch : List String → Except Unit (List DurationCalc.ApiItem))
    (parse : String → Option Int) (minSec : Int) (sl : Bool) :
    ∀ (cs : List (List String)) (st r : DurationCalc.ApiState),
      DurationCalc.processChunks fetch parse minSec sl st cs = Except.ok r →
      r.count = st.count +
        (DurationCalc.includedDurationsApi fetch parse minSec cs).length ∧
      r.total = st.total +
        (DurationCalc.includedDurationsApi fetch parse minSec cs).sum := by
  intro cs
  induction cs with
  | nil =>
    intro st r h
    rw [DurationCalc.processChunks] at h
    cases h
    simp [DurationCalc.includedDurationsApi]
  | cons c rest ih =>
    intro st r h
    rw [DurationCalc.processChunks] at h
    cases hf : fetch c with
    | error e =>
      simp only [hf] at h
      have hih := ih _ _ h
      have hrw : DurationCalc.includedDurationsApi fetch parse minSec (c :: rest)
          = DurationCalc.includedDurationsApi fetch parse minSec rest := by
        simp [DurationCalc.includedDurationsApi, hf]
      rw [hrw]
      exact hih
    | ok items =>
      simp only [hf] at h
      cases hpi : DurationCalc.processApiItems parse minSec sl st items with
      | error e =>
        simp only [hpi] at h
        exact Except.noConfusion h
      | ok st2 =>
        simp only [hpi] at h
        have h1 := processApiItems_ok parse minSec sl items st st2 hpi
        have h2 := ih _ _ h
        have hrw : DurationCalc.includedDurationsApi fetch parse minSec (c :: rest)
            = DurationCalc.itemIncl parse minSec items
              ++ DurationCalc.includedDurationsApi fetch parse minSec rest := by
          simp [DurationCalc.includedDurationsApi, hf]
        rw [hrw]
        constructor
        · rw [h2.1, h1.1]; simp only [List.length_append]; omega
        · rw [h2.2, h1.2]; simp only [List.sum_append]; omega

/-- With every fetched batch no larger than its request, the included
durations are no more numerous than the requested ids. -/
lemma includedDurationsApi_length_le
    (fetch : List String → Except Unit (List DurationCalc.ApiItem))
    (parse : String → Option Int) (minSec : Int)
    (hb : ∀ c items, fetch c = Except.ok items → items.length ≤ c.length) :
    ∀ cs : List (List String),
      (DurationCalc.includedDurationsApi fetch parse minSec cs).length ≤
        (cs.map List.length).sum := by
  intro cs
  induction cs with
  | nil => simp [DurationCalc.includedDurationsApi]
  | cons c rest ih =>
    have hrw : DurationCalc.includedDurationsApi fetch parse minSec (c :: rest)
        = (match fetch c with
            | Except.error _ => []
            | Except.ok items => DurationCalc.itemIncl parse minSec items)
          ++ DurationCalc.includedDurationsApi fetch parse minSec rest := by
      simp [DurationCalc.includedDurationsApi]
    rw [hrw]
    cases hf : fetch c with
    | error e =>
      simp only [hf, List.nil_append, List.map_cons, List.sum_cons]
      exact le_trans ih (by omega)
    | ok items =>
      have hfm : (DurationCalc.itemIncl parse minSec items).length ≤ items.length := by
        unfold DurationCalc.itemIncl
        exact List.length_filterMap_le _ _
      have hlen : (DurationCalc.itemIncl parse minSec items).length ≤ c.length :=
        le_trans hfm (hb c items hf)
      simp only [hf, List.length_append, List.map_cons, List.sum_cons]
      omega

/-- With enough fuel the batches concatenate back to the input list. -/
lemma chunksGo_flatten : ∀ (n : Nat) (l : List String),
    l.length ≤ n → (DurationCalc.chunksGo n l).flatten = l := by
  intro n
  induction n with
  | zero =>
    intro l hl
    have : l = [] := List.eq_nil_of_length_eq_zero (by omega)
    subst this
    rfl
  | succ k ih =>
    intro l hl
    cases l with
    | nil => rfl
    | cons x xs =>
      rw [DurationCalc.chunksGo]
      have hdrop : ((x :: xs).drop 50).length ≤ k := by
        simp only [List.length_drop, List.length_cons]
        simp only [List.length_cons] at hl
        omega
      rw [List.flatten_cons, ih _ hdrop, List.take_append_drop]

/-- The 50-batches of a list concatenate back to the list. -/
lemma chunks50_flatten (l : List String) :
    (DurationCalc.chunks50 l).flatten = l :=
  chunksGo_flatten l.length l le_rfl

/-- The batch sizes of a list sum to its length. -/
lemma chunks50_length_sum (l : List String) :
    ((DurationCalc.chunks50 l).map List.length).sum = l.length := by
  rw [← List.length_flatten, chunks50_flatten]

end Helpers

section UrlClassifier

/-- C6: `parse_url` tries the three patterns in the order playlist, video,
channel and returns the first match's kind and identifier; in particular a
URL in which both the playlist pattern and the video pattern match is
classified as a playlist, and a URL matching none of the three patterns
yields `none` (the Python `(None, None)`, signalled as an unrecognized
source). -/
theorem c6_parse_url_precedence :
    (∀ url pid vid,
      DurationCalc.reSearch DurationCalc.playlistAt url.data = some pid →
      DurationCalc.reSearch DurationCalc.videoAt url.data = some vid →
      DurationCalc.parse_url url = some (DurationCalc.UrlKind.playlist, pid)) ∧
    (∀ url pid,
      DurationCalc.reSearch DurationCalc.playlistAt url.data = some pid →
      DurationCalc.parse_url url = some (DurationCalc.UrlKind.playlist, pid)) ∧
    (∀ url vid,
      DurationCalc.reSearch DurationCalc.playlistAt url.data = none →
      DurationCalc.reSearch DurationCalc.videoAt url.data = some vid →
      DurationCalc.parse_url url = some (DurationCalc.UrlKind.video, vid)) ∧
    (∀ url cid,
      DurationCalc.reSearch DurationCalc.playlistAt url.data = none →
      DurationCalc.reSearch DurationCalc.videoAt url.data = none →
      DurationCalc.reSearch DurationCalc.channelAt url.data = some cid →
      DurationCalc.parse_url url = some (DurationCalc.UrlKind.channel, cid)) ∧
    (∀ url,
      DurationCalc.reSearch DurationCalc.playlistAt url.data = none →
      DurationCalc.reSearch DurationCalc.videoAt url.data = none →
      DurationCalc.reSearch DurationCalc.channelAt url.data = none →
      DurationCalc.parse_url url = none) := by
  refine ⟨?_, ?_, ?_, ?_, ?_⟩ <;> intros <;>
    simp only [DurationCalc.parse_url, *]

/-- Witness for C6: a URL carrying both a `list=` parameter and a
`watch?v=` video id classifies as playlist, and a patternless string is
unrecognized. -/
theorem c6_parse_url_precedence_witness :
    DurationCalc.parse_url
        "https://www.youtube.com/watch?v=dQw4w9WgXcQ&list=PLabc" =
      some (DurationCalc.UrlKind.playlist, "PLabc") ∧
    DurationCalc.parse_url "hello" = none :=
  ⟨c6_parse_url_precedence.1
      "https://www.youtube.com/watch?v=dQw4w9WgXcQ&list=PLabc"
      "PLabc" "dQw4w9WgXcQ" (by decide) (by decide),
    c6_parse_url_precedence.2.2.2.2 "hello" (by decide) (by decide) (by decide)⟩

end UrlClassifier

section Aggregation

/-- C2: in both strategies the aggregation invariants hold — the included
count never exceeds the found count, and the reported total is exactly the
integer-second sum of the durations of the included records and of no
others (the spec-side `includedDurations*` lists collect precisely the
records passing the filter).  For the paginated API strategy `videosFound`
is the number of collected ids (`len(video_ids)` in `main`), and the count
bound uses the YouTube API's guarantee that a batch response has at most as
many items as requested ids. -/
theorem c2_aggregation_invariants :
    (∀ (parse : String → Option Ytdlp.VideoMeta) (stdout : String) (m : Int),
      (Ytdlp.get_playlist_duration_ytdlp parse stdout m).included ≤
        (Ytdlp.get_playlist_duration_ytdlp parse stdout m).found ∧
      (Ytdlp.get_playlist_duration_ytdlp parse stdout m).totalSeconds =
        (Ytdlp.includedDurations parse (m * 60)
          (Ytdlp.pySplitLines (Ytdlp.pyStrip stdout.data))).sum ∧
      (Ytdlp.get_playlist_duration_ytdlp parse stdout m).included =
        (Ytdlp.includedDurations parse (m * 60)
          (Ytdlp.pySplitLines (Ytdlp.pyStrip stdout.data))).length) ∧
    (∀ (fetch : List String → Except Unit (List DurationCalc.ApiItem))
      (parse : String → Option Int) (ids : List String) (m : Int) (sl : Bool)
      (r : DurationCalc.ApiState),
      DurationCalc.get_videos_duration fetch parse ids m sl = Except.ok r →
      (∀ c items, fetch c = Except.ok items → items.length ≤ c.length) →
      r.count ≤ ids.length ∧
      r.total = (DurationCalc.includedDurationsApi fetch parse (m * 60)
        (DurationCalc.chunks50 ids)).sum ∧
      r.count = (DurationCalc.includedDurationsApi fetch parse (m * 60)
        (DurationCalc.chunks50 ids)).length) := by
  constructor
  · intro parse stdout m
    refine ⟨?_, ytdlp_run_total parse stdout m, ytdlp_run_included parse stdout m⟩
    rw [ytdlp_run_included, ytdlp_run_found]
    exact List.length_filterMap_le _ _
  · intro fetch parse ids m sl r hok hb
    have h := processChunks_ok fetch parse (m * 60) sl (DurationCalc.chunks50 ids)
      ⟨0, [], 0⟩ r hok
    have hcount : r.count = (DurationCalc.includedDurationsApi fetch parse (m * 60)
        (DurationCalc.chunks50 ids)).length := by simpa using h.1
    have htotal : r.total = (DurationCalc.includedDurationsApi fetch parse (m * 60)
        (DurationCalc.chunks50 ids)).sum := by simpa using h.2
    refine ⟨?_, htotal, hcount⟩
    rw [hcount]
    calc (DurationCalc.includedDurationsApi fetch parse (m * 60)
            (DurationCalc.chunks50 ids)).length
        ≤ ((DurationCalc.chunks50 ids).map List.length).sum :=
          includedDurationsApi_length_le fetch parse (m * 60) hb _
      _ = ids.length := chunks50_length_sum ids

/-- Witness for C2: a concrete one-record run of each strategy, with the
API part's hypotheses discharged at a fetch that echoes the requested
ids. -/
theorem c2_aggregation_invariants_witness :
    (Ytdlp.get_playlist_duration_ytdlp
        (fun _ => some ⟨some 120, some "u", none⟩) "x" 1).included ≤
      (Ytdlp.get_playlist_duration_ytdlp
        (fun _ => some ⟨some 120, some "u", none⟩) "x" 1).found ∧
    (⟨120, [], 1⟩ : DurationCalc.ApiState).count ≤ (["a"] : List String).length := by
  constructor
  · exact (c2_aggregation_invariants.1 (fun _ => some ⟨some 120, some "u", none⟩)
      "x" 1).1
  · refine (c2_aggregation_invariants.2
      (fun c => Except.ok (c.map fun i => (⟨i, some "PT2M"⟩ : DurationCalc.ApiItem)))
      (fun _ => some 120) ["a"] 1 false ⟨120, [], 1⟩ rfl ?_).1
    intro c items hh
    injection hh with hh
    rw [← hh]
    simp

/-- C3: the minimum-duration filter of both strategies is inclusive.  The
thresholds the scripts can be given are whole minutes `m`, i.e.
`M = m * 60` seconds: a record of duration exactly `M` is included and a
record of duration `M - 1` is excluded — in the subprocess strategy via a
run whose single line parses to the record, in the API strategy via a
single-id call whose fetched item carries the record's duration string. -/
theorem c3_inclusive_threshold :
    (∀ (parse : String → Option Ytdlp.VideoMeta) (m : Int)
      (meta : Ytdlp.VideoMeta),
      parse "x" = some meta → meta.duration = some (m * 60) →
      (Ytdlp.get_playlist_duration_ytdlp parse "x" m).included = 1) ∧
    (∀ (parse : String → Option Ytdlp.VideoMeta) (m : Int)
      (meta : Ytdlp.VideoMeta),
      parse "x" = some meta → meta.duration = some (m * 60 - 1) →
      (Ytdlp.get_playlist_duration_ytdlp parse "x" m).included = 0) ∧
    (∀ (parse : String → Option Int) (m : Int) (s id : String) (sl : Bool),
      parse s = some (m * 60) →
      DurationCalc.get_videos_duration (fun _ => Except.ok [⟨id, some s⟩])
        parse [id] m sl =
        Except.ok ⟨m * 60, if sl then [DurationCalc.watchUrl id] else [], 1⟩) ∧
    (∀ (parse : String → Option Int) (m : Int) (s id : String) (sl : Bool),
      parse s = some (m * 60 - 1) →
      DurationCalc.get_videos_duration (fun _ => Except.ok [⟨id, some s⟩])
        parse [id] m sl = Except.ok ⟨0, [], 0⟩) := by
  refine ⟨?_, ?_, ?_, ?_⟩
  · intro parse m meta hp hd
    rw [ytdlp_run_included]
    have hlines : Ytdlp.pySplitLines (Ytdlp.pyStrip "x".data) = ["x"] := rfl
    rw [hlines]
    simp [Ytdlp.includedDurations, hp, hd]
  · intro parse m meta hp hd
    rw [ytdlp_run_included]
    have hlines : Ytdlp.pySplitLines (Ytdlp.pyStrip "x".data) = ["x"] := rfl
    rw [hlines]
    simp [Ytdlp.includedDurations, hp, hd, show ¬(m * 60 ≤ m * 60 - 1) by omega]
  · intro parse m s id sl hp
    have hchunks : DurationCalc.chunks50 [id] = [[id]] := rfl
    simp [DurationCalc.get_videos_duration, hchunks, DurationCalc.processChunks,
      DurationCalc.processApiItems, hp]
  · intro parse m s id sl hp
    have hchunks : DurationCalc.chunks50 [id] = [[id]] := rfl
    simp [DurationCalc.get_videos_duration, hchunks, DurationCalc.processChunks,
      DurationCalc.processApiItems, hp, show ¬(m * 60 ≤ m * 60 - 1) by omega]

/-- Witness for C3: threshold one minute, records of 60 s and 59 s, in both
strategies. -/
theorem c3_inclusive_threshold_witness :
    (Ytdlp.get_playlist_duration_ytdlp
        (fun _ => some ⟨some 60, none, none⟩) "x" 1).included = 1 ∧
    (Ytdlp.get_playlist_duration_ytdlp
        (fun _ => some ⟨some 59, none, none⟩) "x" 1).included = 0 ∧
    DurationCalc.get_videos_duration (fun _ => Except.ok [⟨"v", some "PT1M"⟩])
        (fun _ => some 60) ["v"] 1 false = Except.ok ⟨60, [], 1⟩ ∧
    DurationCalc.get_videos_duration (fun _ => Except.ok [⟨"v", some "PT59S"⟩])
        (fun _ => some 59) ["v"] 1 false = Except.ok ⟨0, [], 0⟩ := by
  refine ⟨?_, ?_, ?_, ?_⟩
  · exact c3_inclusive_threshold.1 (fun _ => some ⟨some 60, none, none⟩) 1
      ⟨some 60, none, none⟩ rfl rfl
  · exact c3_inclusive_threshold.2.1 (fun _ => some ⟨some 59, none, none⟩) 1
      ⟨some 59, none, none⟩ rfl rfl
  · have h := c3_inclusive_threshold.2.2.1 (fun _ => some 60) 1 "PT1M" "v" false rfl
    simpa using h
  · exact c3_inclusive_threshold.2.2.2 (fun _ => some 59) 1 "PT59S" "v" false rfl

end Aggregation

section Persistence

/-- C8: `save_results` on a filename ending in `.json` produces the JSON
array of exactly the given result objects (each a five-field
`title`/`channel`/`duration`/`url`/`videoId` object); on a filename ending
in `.txt` it produces the formatted text blocks; on any other extension it
reports an invalid-extension error and writes no file (the in-memory result
list is untouched — `save_results` never modifies it). -/
theorem c8_save_results (filename : String) (results : List SearchApi.ResultObj) :
    (".json".data.isSuffixOf filename.data = true →
      SearchApi.save_results filename results =
        SearchApi.SaveOutcome.jsonFile results) ∧
    (".txt".data.isSuffixOf filename.data = true →
      SearchApi.save_results filename results =
        SearchApi.SaveOutcome.txtFile (SearchApi.txtBlocks results)) ∧
    (".json".data.isSuffixOf (filename.data.map Char.toLower) = false →
      ".txt".data.isSuffixOf (filename.data.map Char.toLower) = false →
      SearchApi.save_results filename results =
        SearchApi.SaveOutcome.invalidExtension) := by
  refine ⟨?_, ?_, ?_⟩
  · intro hj
    have hj2 : ".json".data.isSuffixOf (filename.data.map Char.toLower) = true := by
      have hs := List.isSuffixOf_iff_suffix.mp hj
      have := List.IsSuffix.map Char.toLower hs
      simpa using List.isSuffixOf_iff_suffix.mpr this
    simp [SearchApi.save_results, hj2]
  · intro ht
    have ht2 : ".txt".data.isSuffixOf (filename.data.map Char.toLower) = true := by
      have hs := List.isSuffixOf_iff_suffix.mp ht
      have := List.IsSuffix.map Char.toLower hs
      simpa using List.isSuffixOf_iff_suffix.mpr this
    have hj2 : ".json".data.isSuffixOf (filename.data.map Char.toLower) = false := by
      cases hc : ".json".data.isSuffixOf (filename.data.map Char.toLower) with
      | false => rfl
      | true =>
        exfalso
        have hj3 : ".json".data <:+ (filename.data.map Char.toLower) :=
          List.isSuffixOf_iff_suffix.mp hc
        have ht3 : ".txt".data <:+ (filename.data.map Char.toLower) :=
          List.isSuffixOf_iff_suffix.mp ht2
        rcases List.suffix_or_suffix_of_suffix hj3 ht3 with h | h
        · exact absurd (List.isSuffixOf_iff_suffix.mpr h) (by decide)
        · exact absurd (List.isSuffixOf_iff_suffix.mpr h) (by decide)
    simp [SearchApi.save_results, hj2, ht2]
  · intro hj ht
    simp [SearchApi.save_results, hj, ht]

/-- Witness for C8: `out.json` with two result objects yields the
two-element JSON array, `out.txt` the text blocks, and `out.xyz` the
reported error with no file. -/
theorem c8_save_results_witness :
    SearchApi.save_results "out.json"
        [⟨"T1", "C1", "00:01:00", "u1", "v1"⟩, ⟨"T2", "C2", "00:02:00", "u2", "v2"⟩] =
      SearchApi.SaveOutcome.jsonFile
        [⟨"T1", "C1", "00:01:00", "u1", "v1"⟩, ⟨"T2", "C2", "00:02:00", "u2", "v2"⟩] ∧
    SearchApi.save_results "out.txt" [⟨"T1", "C1", "00:01:00", "u1", "v1"⟩] =
      SearchApi.SaveOutcome.txtFile
        (SearchApi.txtBlocks [⟨"T1", "C1", "00:01:00", "u1", "v1"⟩]) ∧
    SearchApi.save_results "out.xyz" [⟨"T1", "C1", "00:01:00", "u1", "v1"⟩] =
      SearchApi.SaveOutcome.invalidExtension :=
  ⟨(c8_save_results "out.json" _).1 (by decide),
    (c8_save_results "out.txt" _).2.1 (by decide),
    (c8_save_results "out.xyz" _).2.2 (by decide) (by decide)⟩

end Persistence

section Formatting

/-- C9: both report formatters render `HH:MM:SS` with `{:02}` (zero-pad to
two digits) fields; the multi-source aggregator's formatter prepends
`"D days, "` exactly when the total reaches one day (and below one day the
two formatters agree); every field bounded below 100 is exactly two digits;
and the spec's three examples — 0 s, 3661 s and 90000 s — format as stated. -/
theorem c9_format_timedelta (t : Nat) :
    (∃ h m s, m < 60 ∧ s < 60 ∧ h * 3600 + m * 60 + s = t ∧
      SearchApi.format_timedelta t =
        pad2 h ++ ":" ++ pad2 m ++ ":" ++ pad2 s) ∧
    (86400 ≤ t → ∃ d h m s, 1 ≤ d ∧ h < 24 ∧ m < 60 ∧ s < 60 ∧
      d * 86400 + h * 3600 + m * 60 + s = t ∧
      DurationCalc.format_timedelta t =
        toString d ++ " days, " ++ pad2 h ++ ":" ++ pad2 m ++ ":" ++ pad2 s) ∧
    (t < 86400 → DurationCalc.format_timedelta t = SearchApi.format_timedelta t) ∧
    (∀ n, n < 100 → (pad2 n).length = 2) ∧
    SearchApi.format_timedelta 0 = "00:00:00" ∧
    SearchApi.format_timedelta 3661 = "01:01:01" ∧
    DurationCalc.format_timedelta 0 = "00:00:00" ∧
    DurationCalc.format_timedelta 3661 = "01:01:01" ∧
    DurationCalc.format_timedelta 90000 = "1 days, 01:00:00" := by
  refine ⟨?_, ?_, ?_, ?_, by decide, by decide, by decide, by decide, by decide⟩
  · exact ⟨t / 3600, t % 3600 / 60, t % 3600 % 60,
      by omega, by omega, by omega, rfl⟩
  · intro ht
    refine ⟨t / 86400, t % 86400 / 3600, t % 86400 % 3600 / 60,
      t % 86400 % 3600 % 60, by omega, by omega, by omega, by omega, by omega, ?_⟩
    have hd : t / 86400 > 0 := Nat.div_pos ht (by norm_num)
    simp only [DurationCalc.format_timedelta, if_pos hd]
  · intro ht
    have hd : t / 86400 = 0 := Nat.div_eq_of_lt ht
    have hm : t % 86400 = t := Nat.mod_eq_of_lt ht
    simp only [DurationCalc.format_timedelta, SearchApi.format_timedelta, hd, hm]
    simp
  · decide

/-- Witness for C9: the day branch at 90000 s and the agreement of the two
formatters at 50 s, obtained from the theorem with its hypotheses
discharged. -/
theorem c9_format_timedelta_witness :
    (∃ d h m s, 1 ≤ d ∧ h < 24 ∧ m < 60 ∧ s < 60 ∧
      d * 86400 + h * 3600 + m * 60 + s = 90000 ∧
      DurationCalc.format_timedelta 90000 =
        toString d ++ " days, " ++ pad2 h ++ ":" ++ pad2 m ++ ":" ++ pad2 s) ∧
    DurationCalc.format_timedelta 50 = SearchApi.format_timedelta 50 ∧
    (pad2 7).length = 2 :=
  ⟨(c9_format_timedelta 90000).2.1 (by decide),
    (c9_format_timedelta 50).2.2.1 (by decide),
    (c9_format_timedelta 0).2.2.2.1 7 (by decide)⟩

end Formatting

section Pagination

/-- An early return out of the item loop fires exactly when the accumulator
has reached the bound: the returned list has exactly `maxResults` entries
(`final_results[:max_results]` of a list of length at least
`max_results`). -/
lemma processSearchItems_inl (details : List SearchApi.VidDetail)
    (parse : String → Option Nat) (minTd : Int) (maxResults : Nat) :
    ∀ (items : List SearchApi.SearchItem) (acc res : List SearchApi.ResultObj),
      SearchApi.processSearchItems details parse minTd maxResults acc items =
        Except.ok (Sum.inl res) →
      res.length = maxResults := by
  intro items
  induction items with
  | nil =>
    intro acc res h
    rw [SearchApi.processSearchItems] at h
    simp at h
  | cons it rest ih =>
    intro acc res h
    rw [SearchApi.processSearchItems] at h
    cases hdl : SearchApi.dictLookup details it.videoId with
    | none =>
      simp only [hdl] at h
      exact ih _ _ h
    | some vd =>
      simp only [hdl] at h
      cases hp : parse (vd.duration.getD "PT0S") with
      | none =>
        simp only [hp] at h
        exact Except.noConfusion h
      | some d =>
        simp only [hp] at h
        by_cases hge : minTd ≤ (d : Int)
        · rw [if_pos hge] at h
          by_cases hfull :
              maxResults ≤ (acc ++ [SearchApi.mkResult it d]).length
          · rw [if_pos hfull] at h
            injection h with h2
            injection h2 with h3
            rw [← h3, List.length_take]
            exact Nat.min_eq_left hfull
          · rw [if_neg hfull] at h
            exact ih _ _ h
        · rw [if_neg hge] at h
          exact ih _ _ h

/-- The outer search loop requests at most `fuel` pages and every returned
result list has at most `maxResults` entries. -/
lemma searchPagesAux_bound (sf : Nat → Except Unit SearchApi.SearchPage)
    (vf : List String → Except Unit (List SearchApi.VidDetail))
    (parse : String → Option Nat) (minTd : Int) (maxResults : Nat) :
    ∀ (fuel idx : Nat) (acc : List SearchApi.ResultObj),
      (SearchApi.searchPagesAux sf vf parse minTd maxResults fuel idx acc).2 ≤ fuel ∧
      ∀ res, (SearchApi.searchPagesAux sf vf parse minTd maxResults fuel idx acc).1 =
          Except.ok res →
        res.length ≤ maxResults := by
  intro fuel
  induction fuel with
  | zero =>
    intro idx acc
    refine ⟨le_rfl, ?_⟩
    intro res h
    rw [SearchApi.searchPagesAux] at h
    injection h with h2
    rw [← h2]
    exact List.length_take_le _ _
  | succ k ih =>
    intro idx acc
    rw [SearchApi.searchPagesAux]
    cases hsf : sf idx with
    | error e =>
      dsimp only
      refine ⟨by omega, ?_⟩
      intro res h
      injection h with h2
      rw [← h2]
      exact List.length_take_le _ _
    | ok page =>
      simp only
      by_cases hids : (page.items.map fun it => it.videoId).isEmpty
      · rw [if_pos hids]
        refine ⟨by omega, ?_⟩
        intro res h
        injection h with h2
        rw [← h2]
        exact List.length_take_le _ _
      · rw [if_neg hids]
        cases hvf : vf (page.items.map fun it => it.videoId) with
        | error e =>
          dsimp only
          refine ⟨by omega, ?_⟩
          intro res h
          injection h with h2
          rw [← h2]
          exact List.length_take_le _ _
        | ok details =>
          cases hpsi : SearchApi.processSearchItems details parse minTd maxResults
              acc page.items with
          | error e =>
            simp only [hpsi]
            refine ⟨by omega, ?_⟩
            intro res h
            exact Except.noConfusion h
          | ok out =>
            simp only [hpsi]
            cases out with
            | inl res' =>
              dsimp only
              refine ⟨by omega, ?_⟩
              intro res h
              injection h with h2
              rw [← h2]
              exact le_of_eq (processSearchItems_inl details parse minTd maxResults
                page.items acc res' hpsi)
            | inr acc2 =>
              dsimp only
              cases htok : page.nextPageToken with
              | none =>
                dsimp only
                refine ⟨by omega, ?_⟩
                intro res h
                injection h with h2
                rw [← h2]
                exact List.length_take_le _ _
              | some tok =>
                dsimp only
                have hrec := ih (idx + 1) acc2
                refine ⟨?_, ?_⟩
                · have := hrec.1
                  omega
                intro res h
                exact hrec.2 res h

/-- In a loop iteration whose item pass fills the accumulator to the bound
(the early `return final_results[:max_results]`, i.e. `Sum.inl`), exactly
that one page is requested in the remainder of the run: the loop halts
immediately with the truncated result, fetching no further search page. -/
lemma searchPagesAux_early_halt (sf : Nat → Except Unit SearchApi.SearchPage)
    (vf : List String → Except Unit (List SearchApi.VidDetail))
    (parse : String → Option Nat) (minTd : Int) (maxResults : Nat) :
    ∀ (fuel idx : Nat) (acc : List SearchApi.ResultObj)
      (page : SearchApi.SearchPage) (details : List SearchApi.VidDetail)
      (res : List SearchApi.ResultObj),
      sf idx = Except.ok page →
      (page.items.map fun it => it.videoId).isEmpty = false →
      vf (page.items.map fun it => it.videoId) = Except.ok details →
      SearchApi.processSearchItems details parse minTd maxResults acc
        page.items = Except.ok (Sum.inl res) →
      SearchApi.searchPagesAux sf vf parse minTd maxResults (fuel + 1) idx acc =
        (Except.ok res, 1) := by
  intro fuel idx acc page details res hsf hne hvf hpsi
  rw [SearchApi.searchPagesAux]
  simp only [hsf, hne, hvf, hpsi]
  rfl

/-- C7: the `--min-duration` search path performs at most 5 search pages —
even against an adapter that returns a continuation token on every page —
and every successfully returned result list carries at most the requested
`max_results` entries (the accumulator is truncated with `[:max_results]`
on both the early return and the final return).  Moreover the path halts
early once the accumulated result list reaches the bound: in any iteration
whose item pass triggers the early return (`Sum.inl`, the code's
`return final_results[:max_results]`), no further search page is fetched —
that iteration's single page is the last one requested — and the returned
list has exactly `max_results` entries, showing the bound was reached. -/
theorem c7_search_page_cap (sf : Nat → Except Unit SearchApi.SearchPage)
    (vf : List String → Except Unit (List SearchApi.VidDetail))
    (parse : String → Option Nat) (m : Int) (maxResults : Nat) :
    (SearchApi.search_youtube_min sf vf parse m maxResults).2 ≤ 5 ∧
    (∀ res, (SearchApi.search_youtube_min sf vf parse m maxResults).1 =
        Except.ok res →
      res.length ≤ maxResults) ∧
    (∀ (fuel idx : Nat) (acc : List SearchApi.ResultObj)
      (page : SearchApi.SearchPage) (details : List SearchApi.VidDetail)
      (res : List SearchApi.ResultObj),
      sf idx = Except.ok page →
      (page.items.map fun it => it.videoId).isEmpty = false →
      vf (page.items.map fun it => it.videoId) = Except.ok details →
      SearchApi.processSearchItems details parse (m * 60) maxResults acc
        page.items = Except.ok (Sum.inl res) →
      SearchApi.searchPagesAux sf vf parse (m * 60) maxResults (fuel + 1) idx acc =
        (Except.ok res, 1) ∧
      res.length = maxResults) := by
  refine ⟨(searchPagesAux_bound sf vf parse (m * 60) maxResults 5 0 []).1,
    (searchPagesAux_bound sf vf parse (m * 60) maxResults 5 0 []).2, ?_⟩
  intro fuel idx acc page details res hsf hne hvf hpsi
  exact ⟨searchPagesAux_early_halt sf vf parse (m * 60) maxResults
      fuel idx acc page details res hsf hne hvf hpsi,
    processSearchItems_inl details parse (m * 60) maxResults
      page.items acc res hpsi⟩

/-- Witness for C7: against an adapter that always hands back a
continuation token, a below-threshold run uses all 5 pages and returns
nothing, while a run whose first page already fills `max_results = 1`
halts after exactly 1 of its 5 remaining pages with exactly the 1 allowed
result. -/
theorem c7_search_page_cap_witness :
    (SearchApi.search_youtube_min
      (fun _ => Except.ok ⟨[⟨"aaaaaaaaaaa", "T", "C"⟩], some "tok"⟩)
      (fun ids => Except.ok (ids.map fun i => ⟨i, some "PT1M"⟩))
      (fun s => if s = "PT1M" then some 60 else none) 2 10).2 ≤ 5 ∧
    ([] : List SearchApi.ResultObj).length ≤ 10 ∧
    SearchApi.searchPagesAux
      (fun _ => Except.ok ⟨[⟨"aaaaaaaaaaa", "T", "C"⟩], some "tok"⟩)
      (fun ids => Except.ok (ids.map fun i => ⟨i, some "PT2M"⟩))
      (fun s => if s = "PT2M" then some 120 else none) (1 * 60) 1 5 0 [] =
      (Except.ok [⟨"T", "C", "00:02:00",
        "https://www.youtube.com/watch?v=aaaaaaaaaaa", "aaaaaaaaaaa"⟩], 1) ∧
    ([(⟨"T", "C", "00:02:00",
        "https://www.youtube.com/watch?v=aaaaaaaaaaa",
        "aaaaaaaaaaa"⟩ : SearchApi.ResultObj)]).length = 1 := by
  refine ⟨?_, ?_, ?_, ?_⟩
  · exact (c7_search_page_cap
      (fun _ => Except.ok ⟨[⟨"aaaaaaaaaaa", "T", "C"⟩], some "tok"⟩)
      (fun ids => Except.ok (ids.map fun i => ⟨i, some "PT1M"⟩))
      (fun s => if s = "PT1M" then some 60 else none) 2 10).1
  · exact (c7_search_page_cap
      (fun _ => Except.ok ⟨[⟨"aaaaaaaaaaa", "T", "C"⟩], some "tok"⟩)
      (fun ids => Except.ok (ids.map fun i => ⟨i, some "PT1M"⟩))
      (fun s => if s = "PT1M" then some 60 else none) 2 10).2.1 [] rfl
  · exact ((c7_search_page_cap
      (fun _ => Except.ok ⟨[⟨"aaaaaaaaaaa", "T", "C"⟩], some "tok"⟩)
      (fun ids => Except.ok (ids.map fun i => ⟨i, some "PT2M"⟩))
      (fun s => if s = "PT2M" then some 120 else none) 1 1).2.2
      4 0 [] ⟨[⟨"aaaaaaaaaaa", "T", "C"⟩], some "tok"⟩
      [⟨"aaaaaaaaaaa", some "PT2M"⟩]
      [⟨"T", "C", "00:02:00",
        "https://www.youtube.com/watch?v=aaaaaaaaaaa", "aaaaaaaaaaa"⟩]
      rfl rfl rfl rfl).1
  · exact ((c7_search_page_cap
      (fun _ => Except.ok ⟨[⟨"aaaaaaaaaaa", "T", "C"⟩], some "tok"⟩)
      (fun ids => Except.ok (ids.map fun i => ⟨i, some "PT2M"⟩))
      (fun s => if s = "PT2M" then some 120 else none) 1 1).2.2
      4 0 [] ⟨[⟨"aaaaaaaaaaa", "T", "C"⟩], some "tok"⟩
      [⟨"aaaaaaaaaaa", some "PT2M"⟩]
      [⟨"T", "C", "00:02:00",
        "https://www.youtube.com/watch?v=aaaaaaaaaaa", "aaaaaaaaaaa"⟩]
      rfl rfl rfl rfl).2

end Pagination

section EmptyOutput

/-- C10: in the subprocess strategy, a successful yt-dlp run with empty
standard output yields `videosFound = 1` — `"".strip().split('\n')` is the
one-element list `[""]` — and that single empty line fails JSON parsing
(`parse "" = none` models `json.loads('')` raising), producing exactly one
warning, `videosIncluded = 0`, and a total that formats as `"00:00:00"`. -/
theorem c10_empty_stdout (parse : String → Option Ytdlp.VideoMeta)
    (m : Int) (hp : parse "" = none) :
    Ytdlp.get_playlist_duration_ytdlp parse "" m =
      { found := 1, included := 0, totalSeconds := 0, links := [],
        warnings := 1, formatted := "00:00:00" } := by
  have hlines : Ytdlp.pySplitLines (Ytdlp.pyStrip "".data) = [""] := rfl
  have hp' : parse (([] : List Char).reverse.asString) = none := hp
  simp only [Ytdlp.get_playlist_duration_ytdlp, hlines, Ytdlp.processLines,
    Ytdlp.processLine, hp, hp']
  rfl

/-- Witness for C10: the parser that rejects every line (as `json.loads`
rejects the empty string) on empty output, at threshold 0. -/
theorem c10_empty_stdout_witness :
    Ytdlp.get_playlist_duration_ytdlp (fun _ => none) "" 0 =
      { found := 1, included := 0, totalSeconds := 0, links := [],
        warnings := 1, formatted := "00:00:00" } :=
  c10_empty_stdout (fun _ => none) 0 rfl

end EmptyOutput

section FailureIsolation

/-- Counterexample to C1: a playlist-membership page that fails after a
successfully fetched page does not leave the earlier page's contribution in
place — `get_playlist_video_ids` returns `[]` for the whole source, and the
id `"earlier"` collected from the successful first page is gone. -/
theorem c1_page_failure_counterexample :
    DurationCalc.get_playlist_video_ids
      [Except.ok ⟨["earlier"], some "tok"⟩, Except.error ()] = [] ∧
    "earlier" ∉ DurationCalc.get_playlist_video_ids
      [Except.ok ⟨["earlier"], some "tok"⟩, Except.error ()] := by
  refine ⟨rfl, ?_⟩
  rw [show DurationCalc.get_playlist_video_ids
    [Except.ok ⟨["earlier"], some "tok"⟩, Except.error ()] = [] from rfl]
  exact List.not_mem_nil _

/-- `processChunks` is unchanged when every failing fetch is replaced by a
successful empty batch. -/
lemma processChunks_recover (fetch : List String → Except Unit (List DurationCalc.ApiItem))
    (parse : String → Option Int) (minSec : Int) (sl : Bool) :
    ∀ (cs : List (List String)) (st : DurationCalc.ApiState),
      DurationCalc.processChunks fetch parse minSec sl st cs =
      DurationCalc.processChunks
        (fun c => match fetch c with
          | Except.error _ => Except.ok []
          | Except.ok items => Except.ok items) parse minSec sl st cs := by
  intro cs
  induction cs with
  | nil => intro st; rfl
  | cons c rest ih =>
    intro st
    rw [DurationCalc.processChunks, DurationCalc.processChunks]
    cases hf : fetch c with
    | error e =>
      simp only [hf, DurationCalc.processApiItems]
      exact ih st
    | ok items =>
      simp only [hf]
      cases hpi : DurationCalc.processApiItems parse minSec sl st items with
      | error e => simp only [hpi]
      | ok st2 =>
        simp only [hpi]
        exact ih st2

/-- As long as each page carries a continuation token, hitting an HTTP error
discards everything accumulated so far. -/
lemma get_playlist_video_ids_aux_error :
    ∀ (pre : List DurationCalc.PlaylistPage) (acc : List String)
      (rest : List (Except Unit DurationCalc.PlaylistPage)),
      (∀ p ∈ pre, p.nextPageToken.isSome) →
      DurationCalc.get_playlist_video_ids_aux acc
        (pre.map Except.ok ++ Except.error () :: rest) = [] := by
  intro pre
  induction pre with
  | nil => intro acc rest _; rfl
  | cons p ps ih =>
    intro acc rest h
    rw [List.map_cons, List.cons_append, DurationCalc.get_playlist_video_ids_aux]
    have hp : p.nextPageToken.isSome := h p (List.mem_cons_self _ _)
    cases htok : p.nextPageToken with
    | none => rw [htok] at hp; simp at hp
    | some t =>
      simp only [htok]
      exact ih _ rest fun q hq => h q (List.mem_cons_of_mem _ hq)

/-- C1, amended: for duration batches the claim holds — a failed
`videos().list` batch contributes nothing and processing continues, i.e. the
whole call computes exactly as if every failing batch had returned an empty
item list.  For playlist-membership pages it does not: an HTTP error on any
page (here: after any prefix of successful pages that still carry a
continuation token) makes `get_playlist_video_ids` return `[]` for the whole
source, discarding the video ids collected from the pages fetched before the
failure. -/
theorem c1_amended_failure_isolation :
    (∀ (fetch : List String → Except Unit (List DurationCalc.ApiItem))
      (parse : String → Option Int) (ids : List String) (m : Int) (sl : Bool),
      DurationCalc.get_videos_duration fetch parse ids m sl =
      DurationCalc.get_videos_duration
        (fun c => match fetch c with
          | Except.error _ => Except.ok []
          | Except.ok items => Except.ok items) parse ids m sl) ∧
    (∀ (pre : List DurationCalc.PlaylistPage)
      (rest : List (Except Unit DurationCalc.PlaylistPage)),
      (∀ p ∈ pre, p.nextPageToken.isSome) →
      DurationCalc.get_playlist_video_ids
        (pre.map Except.ok ++ Except.error () :: rest) = []) := by
  constructor
  · intro fetch parse ids m sl
    exact processChunks_recover fetch parse (m * 60) sl
      (DurationCalc.chunks50 ids) ⟨0, [], 0⟩
  · intro pre rest h
    exact get_playlist_video_ids_aux_error pre [] rest h

/-- Witness for C1 (amended): a concrete always-failing fetch computes like
the empty-batch fetch, and a concrete successful page followed by an error
yields the empty id list. -/
theorem c1_amended_failure_isolation_witness :
    DurationCalc.get_videos_duration (fun _ => Except.error ())
        (fun _ => some 60) ["a"] 0 false =
      DurationCalc.get_videos_duration
        (fun _ => match (Except.error () : Except Unit (List DurationCalc.ApiItem)) with
          | Except.error _ => Except.ok []
          | Except.ok items => Except.ok items) (fun _ => some 60) ["a"] 0 false ∧
    DurationCalc.get_playlist_video_ids
      ([(⟨["a"], some "t"⟩ : DurationCalc.PlaylistPage)].map Except.ok
        ++ Except.error () :: []) = [] := by
  constructor
  · exact c1_amended_failure_isolation.1 (fun _ => Except.error ())
      (fun _ => some 60) ["a"] 0 false
  · exact c1_amended_failure_isolation.2 [⟨["a"], some "t"⟩] []
      (fun p hp => by rw [List.mem_singleton.mp hp]; rfl)

end FailureIsolation

section UnknownDuration

/-- Counterexample to C4: in the paginated API strategy a record whose
duration field is missing does not produce a warning and get skipped — the
`KeyError` from `item['contentDetails']['duration']` is not caught by the
`except HttpError` handler, so the whole duration-fetch call aborts (and the
well-formed record after it is never processed). -/
theorem c4_unknown_duration_counterexample :
    DurationCalc.get_videos_duration
      (fun _ => Except.ok [⟨"noDur", none⟩, ⟨"good", some "PT1M"⟩])
      (fun _ => some 60) ["noDur", "good"] 0 false =
      Except.error DurationCalc.ApiErr.keyError := rfl

/-- C4, amended: in the subprocess strategy a parsed record with no
duration is never included — the accumulators are unchanged apart from
exactly one extra warning, for every threshold; in the paginated API
strategy a record with a missing duration field instead raises an uncaught
`KeyError` that aborts the whole duration-fetch call. -/
theorem c4_unknown_duration_amended :
    (∀ (parse : String → Option Ytdlp.VideoMeta) (minSec : Int)
      (st : Ytdlp.St) (line : String) (meta : Ytdlp.VideoMeta),
      parse line = some meta → meta.duration = none →
      Ytdlp.processLine parse minSec st line =
        { st with warnings := st.warnings + 1 }) ∧
    (∀ (parse : String → Option Int) (minSec : Int) (sl : Bool)
      (st : DurationCalc.ApiState) (it : DurationCalc.ApiItem)
      (rest : List DurationCalc.ApiItem),
      it.duration = none →
      DurationCalc.processApiItems parse minSec sl st (it :: rest) =
        Except.error DurationCalc.ApiErr.keyError) := by
  constructor
  · intro parse minSec st line meta hp hd
    rw [Ytdlp.processLine]
    simp only [hp, hd]
  · intro parse minSec sl st it rest hd
    rw [DurationCalc.processApiItems]
    simp only [hd]

/-- Witness for C4 (amended): one duration-less record in each strategy. -/
theorem c4_unknown_duration_amended_witness :
    Ytdlp.processLine (fun _ => some ⟨none, none, none⟩) 0 ⟨0, 0, [], 0⟩ "x" =
      { included := 0, totalSeconds := 0, links := [], warnings := 1 } ∧
    DurationCalc.processApiItems (fun _ => some 60) 0 false ⟨0, [], 0⟩
      [⟨"v", none⟩] = Except.error DurationCalc.ApiErr.keyError := by
  constructor
  · exact c4_unknown_duration_amended.1 (fun _ => some ⟨none, none, none⟩) 0
      ⟨0, 0, [], 0⟩ "x" ⟨none, none, none⟩ rfl rfl
  · exact c4_unknown_duration_amended.2 (fun _ => some 60) 0 false ⟨0, [], 0⟩
      ⟨"v", none⟩ [] rfl

end UnknownDuration

section ParseFailure

/-- Counterexample to C5: in the paginated API strategy a per-record parse
failure (an unparseable ISO-8601 duration string) does not get a warning and
a skip — the `isodate` exception is uncaught, the whole duration-fetch call
aborts, and the parseable record after it is never processed. -/
theorem c5_parse_failure_counterexample :
    DurationCalc.get_videos_duration
      (fun _ => Except.ok [⟨"bad", some "garbage"⟩, ⟨"ok", some "PT1M"⟩])
      (fun s => if s = "PT1M" then some 60 else none) ["bad", "ok"] 0 false =
      Except.error DurationCalc.ApiErr.isoParseError := rfl

/-- C5, amended: in the subprocess strategy a per-record parse failure
(malformed JSON line or missing field) logs exactly one warning, skips that
record, and the loop continues with the remaining lines; in the paginated
API strategy an unparseable duration string instead raises an uncaught
exception that aborts the whole duration-fetch call. -/
theorem c5_parse_failure_amended :
    (∀ (parse : String → Option Ytdlp.VideoMeta) (minSec : Int)
      (st : Ytdlp.St) (line : String),
      parse line = none →
      Ytdlp.processLine parse minSec st line =
        { st with warnings := st.warnings + 1 }) ∧
    (∀ (parse : String → Option Ytdlp.VideoMeta) (minSec : Int)
      (st : Ytdlp.St) (line : String) (rest : List String),
      parse line = none →
      Ytdlp.processLines parse minSec st (line :: rest) =
        Ytdlp.processLines parse minSec
          { st with warnings := st.warnings + 1 } rest) ∧
    (∀ (parse : String → Option Int) (minSec : Int) (sl : Bool)
      (st : DurationCalc.ApiState) (it : DurationCalc.ApiItem)
      (rest : List DurationCalc.ApiItem) (s : String),
      it.duration = some s → parse s = none →
      DurationCalc.processApiItems parse minSec sl st (it :: rest) =
        Except.error DurationCalc.ApiErr.isoParseError) := by
  refine ⟨?_, ?_, ?_⟩
  · intro parse minSec st line hp
    rw [Ytdlp.processLine]
    simp only [hp]
  · intro parse minSec st line rest hp
    rw [Ytdlp.processLines]
    rw [show Ytdlp.processLine parse minSec st line =
      { st with warnings := st.warnings + 1 } from by
        rw [Ytdlp.processLine]; simp only [hp]]
  · intro parse minSec sl st it rest s hd hp
    rw [DurationCalc.processApiItems]
    simp only [hd, hp]

/-- Witness for C5 (amended): a rejected line followed by two more lines in
the subprocess strategy, and an unparseable duration string in the API
strategy. -/
theorem c5_parse_failure_amended_witness :
    Ytdlp.processLines (fun _ => none) 0 ⟨0, 0, [], 0⟩ ["a", "b"] =
      Ytdlp.processLines (fun _ => none) 0 ⟨0, 0, [], 1⟩ ["b"] ∧
    DurationCalc.processApiItems (fun _ => none) 0 false ⟨0, [], 0⟩
      [⟨"v", some "garbage"⟩] = Except.error DurationCalc.ApiErr.isoParseError := by
  constructor
  · exact c5_parse_failure_amended.2.1 (fun _ => none) 0 ⟨0, 0, [], 0⟩ "a" ["b"] rfl
  · exact c5_parse_failure_amended.2.2 (fun _ => none) 0 false ⟨0, [], 0⟩
      ⟨"v", some "garbage"⟩ [] "garbage" rfl rfl

end ParseFailure
